import Mathlib

/-!
Shallow embedding of the `little-tokio` single-threaded async runtime
(crates/little-tokio) and proofs about its scheduler, reactor, kqueue
selector wrapper and async TCP operations.

Machine pointers (`*const ()`) and `usize` are both pointer-width words on
the targeted platforms, so the casts `usize as *const ()` / `*const () as
usize` never truncate; we model both by `Nat`.  Hash maps are modelled by
association lists with replace-on-insert, observed only through lookup.
Kernel behaviour (results of the `kevent` and socket syscalls) enters the
embedding as explicit inputs.
-/

namespace LittleTokio

/-- Association-list lookup, modelling `HashMap::get`. -/
def lookupKey {κ ν : Type} [DecidableEq κ] : List (κ × ν) → κ → Option ν
  | [], _ => none
  | e :: rest, k => if e.1 = k then some e.2 else lookupKey rest k

/-- Association-list key removal, modelling `HashMap::remove`. -/
def eraseKey {κ ν : Type} [DecidableEq κ] : List (κ × ν) → κ → List (κ × ν)
  | [], _ => []
  | e :: rest, k => if e.1 = k then eraseKey rest k else e :: eraseKey rest k

/-- Association-list insertion with replacement, modelling `HashMap::insert`. -/
def insertKey {κ ν : Type} [DecidableEq κ] (m : List (κ × ν)) (k : κ) (v : ν) :
    List (κ × ν) :=
  (k, v) :: eraseKey m k

/-- `Id(usize)` from `core/task.rs`: the identifier of a task. -/
structure TaskId where
  val : Nat
deriving DecidableEq, Repr

/-- `Token(usize)` from `core/token.rs`: the `udata` payload of a `kevent`. -/
structure Token where
  val : Nat
deriving DecidableEq, Repr

/-- `Id::to_ptr`: `self.0 as *const ()`. -/
def TaskId.to_ptr (id : TaskId) : Nat := id.val

/-- `Id::from_ptr`: `Self(value as usize)`. -/
def TaskId.from_ptr (value : Nat) : TaskId := ⟨value⟩

/-- `Token::to_ptr`: `self.0 as *const ()`. -/
def Token.to_ptr (t : Token) : Nat := t.val

/-- `Token::from_ptr`: `Self(value as usize)`. -/
def Token.from_ptr (value : Nat) : Token := ⟨value⟩

/-- `impl From<Token> for Id` from `core/task.rs`: `Self::from_ptr(token.to_ptr())`. -/
def TaskId.ofToken (t : Token) : TaskId := TaskId.from_ptr t.to_ptr

/-- `impl From<TaskId> for Token` from `core/token.rs`: `Self::from_ptr(id.to_ptr())`. -/
def Token.ofTaskId (id : TaskId) : Token := Token.from_ptr id.to_ptr

/-- `Id::increment`: returns the current value and bumps the counter. -/
def TaskId.increment (id : TaskId) : TaskId × TaskId :=
  (⟨id.val⟩, ⟨id.val + 1⟩)

/-- Abbreviation for a concrete task id used in concrete runs. -/
def tid (n : Nat) : TaskId := ⟨n⟩

/-- The result of one `Future::poll` step, `std::task::Poll<()>`. -/
inductive PollResult where
  | pending
  | ready
deriving DecidableEq, Repr

/-- A task (`Pin<Box<dyn Future<Output = ()>>>`) observed at the scheduler
interface: each step may invoke wakers (each waker carries a `TaskId`) and
then returns `Pending` or `Ready(())`.  We embed a task by the script of
its successive steps; a task polled beyond its script stays `Pending` and
wakes nobody (a future that never completes). -/
structure Task where
  script : List (List TaskId × PollResult)
deriving DecidableEq, Repr

/-- Advance a task one step: the wakes it issues, its poll result, and the
task afterwards. -/
def Task.step (t : Task) : List TaskId × PollResult × Task :=
  match t.script with
  | [] => ([], PollResult.pending, t)
  | s :: rest => (s.1, s.2, ⟨rest⟩)

/-- The `Schedule` struct of `lib.rs`: counter, task map and ready queue. -/
structure Schedule where
  next_id : TaskId
  pending_tasks : List (TaskId × Task)
  scheduled_ids : List TaskId
deriving DecidableEq, Repr

/-- `wake_by_ref` from `vtable.rs`: `core.schedule(TaskId::from_ptr(id))`,
which is `self.scheduled_ids.push(id)`. -/
def wake (s : Schedule) (id : TaskId) : Schedule :=
  { s with scheduled_ids := s.scheduled_ids ++ [id] }

/-- `poll(id)` from `lib.rs`, instrumented with whether a task was actually
stepped: remove the task from `pending_tasks` (absent: return unchanged);
step it once (the wakes it issues are pushed onto `scheduled_ids`); on
`Pending` reinsert the stepped task, on `Ready(())` drop it. -/
def pollStep (s : Schedule) (id : TaskId) : Schedule × Bool :=
  match lookupKey s.pending_tasks id with
  | none => (s, false)
  | some task =>
    let rest := eraseKey s.pending_tasks id
    let out := task.step
    let s2 : Schedule :=
      { s with pending_tasks := rest,
               scheduled_ids := s.scheduled_ids ++ out.1 }
    match out.2.1 with
    | PollResult.pending =>
        ({ s2 with pending_tasks := insertKey s2.pending_tasks id out.2.2 }, true)
    | PollResult.ready => (s2, true)

/-- `poll(id)` from `lib.rs`, state part only. -/
def Schedule.poll (s : Schedule) (id : TaskId) : Schedule := (pollStep s id).1

/-- `spawn` from `lib.rs`: allocate the next id, insert the task, push the
id onto the ready queue. -/
def Schedule.spawn (s : Schedule) (t : Task) : Schedule :=
  let out := s.next_id.increment
  { next_id := out.2,
    pending_tasks := insertKey s.pending_tasks out.1 t,
    scheduled_ids := s.scheduled_ids ++ [out.1] }

/-- `scheduled_ids()` from `lib.rs`: `mem::take` the ready queue, returning
the drained snapshot and the schedule with an empty queue. -/
def drain (s : Schedule) : List TaskId × Schedule :=
  (s.scheduled_ids, { s with scheduled_ids := [] })

/-- Poll every id of a drained snapshot in order (the `for id in
scheduled_ids()` loop body of `block_on`), logging for each poll whether a
task was actually stepped. -/
def pollAll (s : Schedule) : List TaskId → Schedule × List (TaskId × Bool)
  | [] => (s, [])
  | id :: rest =>
    let out := pollStep s id
    let outs := pollAll out.1 rest
    (outs.1, (id, out.2) :: outs.2)

/-- One pass of the dispatch loop of `block_on`: drain the ready queue and
poll the snapshot in order. -/
def iteration (s : Schedule) : Schedule × List (TaskId × Bool) :=
  let out := drain s
  pollAll out.2 out.1

/-- `Status` from `lib.rs`. -/
inductive Status where
  | runningTasks
  | waitingForEvents
  | done
deriving DecidableEq, Repr

/-- `status()` from `lib.rs`. -/
def Schedule.status (s : Schedule) : Status :=
  if s.pending_tasks.isEmpty then Status.done
  else if s.scheduled_ids.isEmpty then Status.waitingForEvents
  else Status.runningTasks

/-- The wakes the next poll of `id` would emit: empty when the task is
absent, otherwise the wakes of its next step. -/
def stepWakes (s : Schedule) (id : TaskId) : List TaskId :=
  match lookupKey s.pending_tasks id with
  | none => []
  | some t => t.step.1

/-- All wakes emitted while polling the given ids in order. -/
def wakesDuring (s : Schedule) : List TaskId → List TaskId
  | [] => []
  | id :: rest => stepWakes s id ++ wakesDuring (s.poll id) rest

/-- How many entries of a poll log actually stepped the task `id`. -/
def steppedCount : List (TaskId × Bool) → TaskId → Nat
  | [], _ => 0
  | e :: rest, id =>
    (if e.1 = id ∧ e.2 = true then 1 else 0) + steppedCount rest id

/-- Occurrence count of an id in a list of ids. -/
def countId : List TaskId → TaskId → Nat
  | [], _ => 0
  | j :: rest, id => (if j = id then 1 else 0) + countId rest id

/-- The operations the runtime ever performs on the schedule while it is
installed: waking an id (from the waker vtable or the reactor), polling an
id (from the dispatch loop) and spawning a task. -/
inductive Op where
  | opWake (id : TaskId)
  | opPoll (id : TaskId)
  | opSpawn (t : Task)
deriving DecidableEq, Repr

/-- Execute one operation, returning the new schedule and the ids whose
task was actually stepped by the operation. -/
def exec (s : Schedule) : Op → Schedule × List TaskId
  | Op.opWake id => (wake s id, [])
  | Op.opPoll id =>
    let out := pollStep s id
    (out.1, if out.2 then [id] else [])
  | Op.opSpawn t => (s.spawn t, [])

/-- Execute a list of operations, collecting every stepped id. -/
def execTrace (s : Schedule) : List Op → Schedule × List TaskId
  | [] => (s, [])
  | op :: rest =>
    let out := exec s op
    let outs := execTrace out.1 rest
    (outs.1, out.2 ++ outs.2)

/-- An id is retired when its task is gone from the task map and the id
was allocated below the spawn counter, so no later spawn can reuse it. -/
def Retired (s : Schedule) (id : TaskId) : Prop :=
  lookupKey s.pending_tasks id = none ∧ id.val < s.next_id.val

/-! Raw OS error codes and `kevent` constants (BSD numeric values). -/

/-- `libc::EINTR`. -/
def EINTR : Int := 4

/-- `libc::ENOENT`. -/
def ENOENT : Int := 2

/-- `libc::EPIPE`. -/
def EPIPE : Int := 32

/-- `libc::EV_ERROR`. -/
def EV_ERROR : Nat := 0x4000

/-- `libc::EVFILT_READ`. -/
def EVFILT_READ : Int := -1

/-- `libc::EVFILT_WRITE`. -/
def EVFILT_WRITE : Int := -2

/-- A `libc::kevent` value (`sys/unix/kqueue.rs`). -/
structure KEvent where
  ident : Nat
  filter : Int
  flags : Nat
  fflags : Nat
  data : Int
  udata : Nat
deriving DecidableEq, Repr

/-- `Event::default()`: a zeroed `kevent`. -/
def KEvent.zeroed : KEvent := ⟨0, 0, 0, 0, 0, 0⟩

/-- `Events` from `sys/unix/kqueue.rs`: a `Vec<libc::kevent>` together with
its capacity. -/
structure Events where
  capacity : Nat
  events : List KEvent
deriving DecidableEq, Repr

/-- `Events::default()`: `vec![*Event::default()]`, a vector of length one
and capacity one. -/
def Events.default : Events := { capacity := 1, events := [KEvent.zeroed] }

/-- `check_errors` from `sys/unix/kqueue.rs`: return the first per-event
`EV_ERROR` whose `data` is a non-zero, non-ignored error code. -/
def check_errors : List KEvent → List Int → Except Int Unit
  | [], _ => Except.ok ()
  | e :: rest, ignored =>
    if e.flags &&& EV_ERROR ≠ 0 ∧ e.data ≠ 0 ∧ ¬ ignored.contains e.data then
      Except.error e.data
    else check_errors rest ignored

/-- `register_kevents` from `sys/unix/kqueue.rs`.  The kernel's verdict on
the submitted changelist is the input `kres`; the changelist as the kernel
left it (receipts filled in) is `changelist`.  A syscall error of `EINTR`
is swallowed ("all changes in the changelist have been applied"); any
other syscall error is surfaced; on success the per-event receipts are
checked. -/
def register_kevents (kres : Except Int Unit) (changelist : List KEvent)
    (ignored : List Int) : Except Int Unit :=
  match kres with
  | Except.ok _ => check_errors changelist ignored
  | Except.error err =>
    if err = EINTR then check_errors changelist ignored else Except.error err

/-- `Selector::try_select` from `sys/unix/kqueue.rs`.  The events the
kernel has ready are the input `kready` (an errno on failure).  The
eventlist is cleared, the kernel writes at most `capacity` events and the
length is set to the number written.  There is no error handling: every
syscall error, `EINTR` included, is surfaced. -/
def try_select (kready : Except Int (List KEvent)) (eventlist : Events) :
    Except Int Events :=
  match kready with
  | Except.error err => Except.error err
  | Except.ok ks =>
    Except.ok { capacity := eventlist.capacity, events := ks.take eventlist.capacity }

/-- `Interest` from `core/interest.rs`: a non-empty bitset over
readable (bit 0) and writable (bit 1). -/
structure Interest where
  bits : Nat
deriving DecidableEq, Repr

/-- `Interest::READABLE`. -/
def Interest.READABLE : Interest := ⟨1⟩

/-- `Interest::WRITABLE`. -/
def Interest.WRITABLE : Interest := ⟨2⟩

/-- `Interest::is_readable`. -/
def Interest.is_readable (i : Interest) : Bool := decide (i.bits &&& 1 ≠ 0)

/-- `Interest::is_writable`. -/
def Interest.is_writable (i : Interest) : Bool := decide (i.bits &&& 2 ≠ 0)

/-- The kernel's registration table of one kqueue: `(ident, filter)` keys
carrying the registered `udata` token payload. -/
abbrev KqRegs : Type := List ((Nat × Int) × Nat)

/-- Effect on the kernel table of one `EV_ADD` change (kqueue replaces an
existing `(ident, filter)` entry). -/
def kqAdd (regs : KqRegs) (fd : Nat) (filt : Int) (tok : Nat) : KqRegs :=
  insertKey regs (fd, filt) tok

/-- Effect on the kernel table of one `EV_DELETE` change; `ENOENT` is
ignored by the caller, so deletion of an absent entry is a no-op. -/
def kqDel (regs : KqRegs) (fd : Nat) (filt : Int) : KqRegs :=
  eraseKey regs (fd, filt)

/-- `Selector::try_register`: submit `EV_ADD` changes (write first, then
read, matching the changelist construction order) carrying the token in
`udata`, with `EPIPE` ignored. -/
def Selector.try_register (regs : KqRegs) (fd : Nat) (token : Token)
    (i : Interest) : KqRegs :=
  let regs1 := if i.is_writable then kqAdd regs fd EVFILT_WRITE token.to_ptr else regs
  if i.is_readable then kqAdd regs1 fd EVFILT_READ token.to_ptr else regs1

/-- `Selector::try_deregister`: submit `EV_DELETE` changes for both the
write and the read filter of `fd`, with `ENOENT` ignored. -/
def Selector.try_deregister (regs : KqRegs) (fd : Nat) : KqRegs :=
  kqDel (kqDel regs fd EVFILT_WRITE) fd EVFILT_READ

/-- Modelled from the spec: the `From<RawFd> for Token` conversion that
`core/reactor.rs` invokes as `fd.as_raw_fd().into()` is absent from the
sources under `src/`; the spec fixes it — "`register(fd, interest)`
forwards to the selector using the fd's numeric value as the token". -/
def Token.ofFd (fd : Nat) : Token := ⟨fd⟩

/-- The `Reactor` of `core/reactor.rs`: the selector's kernel table and the
`blocked_fds` map from tokens to parked wakers.  A waker of this runtime
is exactly a `TaskId` behind the vtable, so wakers are embedded as task
ids. -/
structure Reactor where
  registrations : KqRegs
  blocked_fds : List (Token × TaskId)
deriving DecidableEq, Repr

/-- `Reactor::default()`: fresh selector, no parked wakers. -/
def Reactor.empty : Reactor := ⟨[], []⟩

/-- `Reactor::try_register`: forward to the selector with the fd's numeric
value as the token. -/
def Reactor.try_register (r : Reactor) (fd : Nat) (i : Interest) : Reactor :=
  { r with registrations := Selector.try_register r.registrations fd (Token.ofFd fd) i }

/-- `Reactor::try_deregister`: remove the `blocked_fds` entry for the fd's
token, then remove both selector entries. -/
def Reactor.try_deregister (r : Reactor) (fd : Nat) : Reactor :=
  { registrations := Selector.try_deregister r.registrations fd,
    blocked_fds := eraseKey r.blocked_fds (Token.ofFd fd) }

/-- `Reactor::do_block`: park the waker under the fd's token
(replacing any previous waker, last-writer-wins). -/
def Reactor.do_block (r : Reactor) (fd : Nat) (w : TaskId) : Reactor :=
  { r with blocked_fds := insertKey r.blocked_fds (Token.ofFd fd) w }

/-- The loop body of `Reactor::try_turn`: look the event's `udata` token up
in `blocked_fds` and invoke `wake_by_ref` on the parked waker, if any
(unknown tokens are dropped silently). -/
def dispatchEvent (r : Reactor) (acc : Schedule) (ev : KEvent) : Schedule :=
  match lookupKey r.blocked_fds (Token.from_ptr ev.udata) with
  | some w => wake acc w
  | none => acc

/-- `Reactor::try_turn`: select into a default (capacity-one) event buffer
and, for every returned event, wake the waker parked under the event's
`udata` token, if any. -/
def Reactor.try_turn (r : Reactor) (s : Schedule)
    (kready : Except Int (List KEvent)) : Except Int Schedule :=
  match try_select kready Events.default with
  | Except.error e => Except.error e
  | Except.ok evs => Except.ok (evs.events.foldl (dispatchEvent r) s)

/-- `std::io::ErrorKind`, reduced to the distinction `net/tcp.rs` makes. -/
inductive ErrorKind where
  | wouldBlock
  | otherKind
deriving DecidableEq, Repr

/-- An `std::io::Error`: its kind plus a code so distinct errors stay
distinguishable ("returned unchanged"). -/
structure IoError where
  kind : ErrorKind
  code : Nat
deriving DecidableEq, Repr

/-- `std::task::Poll` with a payload. -/
inductive Poll (α : Type) where
  | pending
  | ready (v : α)
deriving DecidableEq, Repr

/-- `<Read as Future>::poll` from `net/tcp.rs`: the outcome of the one
non-blocking `read` syscall is the input.  `Ok(size)` resolves ready;
`WouldBlock` parks the waker and returns pending; any other error is
returned unchanged. -/
def Read.poll (r : Reactor) (fd : Nat) (waker : TaskId)
    (ioResult : Except IoError Nat) : Poll (Except IoError Nat) × Reactor :=
  match ioResult with
  | Except.ok size => (Poll.ready (Except.ok size), r)
  | Except.error e =>
    if e.kind = ErrorKind.wouldBlock then (Poll.pending, r.do_block fd waker)
    else (Poll.ready (Except.error e), r)

/-- `<Write as Future>::poll` from `net/tcp.rs`, same shape as `Read`. -/
def Write.poll (r : Reactor) (fd : Nat) (waker : TaskId)
    (ioResult : Except IoError Nat) : Poll (Except IoError Nat) × Reactor :=
  match ioResult with
  | Except.ok size => (Poll.ready (Except.ok size), r)
  | Except.error e =>
    if e.kind = ErrorKind.wouldBlock then (Poll.pending, r.do_block fd waker)
    else (Poll.ready (Except.error e), r)

/-- `<Accept as Future>::poll` from `net/tcp.rs`: the outcome of the one
non-blocking `accept` call is `acceptResult` (a stream fd and peer address
on success); on success the accepted stream is wrapped by `Stream::new`,
whose `set_nonblocking` outcome is `setNonblocking` and whose error is
propagated by the `?` into `Ready(Err(..))`. -/
def Accept.poll (r : Reactor) (fd : Nat) (waker : TaskId)
    (acceptResult : Except IoError (Nat × Nat))
    (setNonblocking : Except IoError Unit) :
    Poll (Except IoError (Nat × Nat)) × Reactor :=
  match acceptResult with
  | Except.ok sa =>
    match setNonblocking with
    | Except.ok _ => (Poll.ready (Except.ok sa), r)
    | Except.error e => (Poll.ready (Except.error e), r)
  | Except.error e =>
    if e.kind = ErrorKind.wouldBlock then (Poll.pending, r.do_block fd waker)
    else (Poll.ready (Except.error e), r)

/-- `<Accept as Drop>::drop` from `net/tcp.rs`: deregister the listener fd
before the destructor returns. -/
def Accept.drop (r : Reactor) (fd : Nat) : Reactor := r.try_deregister fd

/-- `<Read as PinnedDrop>::drop` from `net/tcp.rs`. -/
def Read.drop (r : Reactor) (fd : Nat) : Reactor := r.try_deregister fd

/-- `<Write as PinnedDrop>::drop` from `net/tcp.rs`. -/
def Write.drop (r : Reactor) (fd : Nat) : Reactor := r.try_deregister fd

/-- The two thread-local cells of `lib.rs` (`SCHEDULE` and `REACTOR`). -/
structure ThreadLocals where
  schedule : Option Schedule
  reactor : Option Reactor
deriving DecidableEq, Repr

/-- `Schedule::default()`. -/
def Schedule.empty : Schedule := ⟨⟨0⟩, [], []⟩

/-- The dispatch loop of `block_on`, with explicit fuel (the loop itself
has no bound) and the kernel's answer to each blocking select given as the
list `turns`.  A panic (`expect` on a `turn` error) and running out of
fuel or of kernel answers are modelled as `none`: the loop does not
return. -/
def dispatch (fuel : Nat) (r : Reactor) (turns : List (Except Int (List KEvent)))
    (s : Schedule) : Option Schedule :=
  match fuel with
  | 0 => none
  | Nat.succ fuel2 =>
    let s1 := (iteration s).1
    match s1.status with
    | Status.done => some s1
    | Status.runningTasks => dispatch fuel2 r turns s1
    | Status.waitingForEvents =>
      match turns with
      | [] => none
      | k :: rest =>
        match Reactor.try_turn r s1 k with
        | Except.error _ => none
        | Except.ok s2 => dispatch fuel2 r rest s2

/-- `block_on` from `lib.rs`: panic (modelled `none`) if a schedule or a
reactor is already installed; install fresh ones; spawn the main task; run
the dispatch loop; then `SCHEDULE.take()` and `REACTOR.take()` clear both
thread-locals. -/
def block_on (fuel : Nat) (turns : List (Except Int (List KEvent)))
    (main : Task) (tl : ThreadLocals) : Option ThreadLocals :=
  match tl.schedule, tl.reactor with
  | none, none =>
    match dispatch fuel Reactor.empty turns (Schedule.empty.spawn main) with
    | none => none
    | some _ => some ⟨none, none⟩
  | _, _ => none

/-! Concrete inputs used by counterexamples and witnesses. -/

/-- A task whose first two steps are `Pending` with no wakes. -/
def twoPendingTask : Task := ⟨[([], PollResult.pending), ([], PollResult.pending)]⟩

/-- A schedule holding `twoPendingTask` as task 0, nothing ready. -/
def schedOne : Schedule := ⟨⟨1⟩, [(tid 0, twoPendingTask)], []⟩

/-- `schedOne` after task 0 was woken twice between two drains. -/
def schedOneWokenTwice : Schedule := wake (wake schedOne (tid 0)) (tid 0)

/-- A task that wakes its own id once and then returns `Ready(())`. -/
def selfWakeReadyTask : Task := ⟨[([tid 0], PollResult.ready)]⟩

/-- A schedule holding `selfWakeReadyTask` as task 0, nothing ready. -/
def schedSelfWake : Schedule := ⟨⟨1⟩, [(tid 0, selfWakeReadyTask)], []⟩

/-- A task that completes on its first step without waking anybody. -/
def immediateReadyTask : Task := ⟨[([], PollResult.ready)]⟩

/-- A schedule holding `immediateReadyTask` as task 0, nothing ready. -/
def schedImmediate : Schedule := ⟨⟨1⟩, [(tid 0, immediateReadyTask)], []⟩

/-! Association-list lemmas. -/

theorem lookupKey_erase {κ ν : Type} [DecidableEq κ] (m : List (κ × ν)) (k k2 : κ) :
    lookupKey (eraseKey m k) k2 = if k = k2 then none else lookupKey m k2 := by
  induction m with
  | nil => simp [eraseKey, lookupKey]
  | cons e rest ih =>
    rw [eraseKey]
    by_cases h1 : e.1 = k
    · rw [if_pos h1, ih]
      by_cases h2 : k = k2
      · rw [if_pos h2, if_pos h2]
      · have h3 : ¬ e.1 = k2 := fun hx => h2 (h1 ▸ hx)
        rw [if_neg h2, if_neg h2, lookupKey, if_neg h3]
    · rw [if_neg h1, lookupKey]
      by_cases h3 : e.1 = k2
      · have h2 : ¬ k = k2 := fun hx => h1 (h3.trans hx.symm)
        rw [if_pos h3, if_neg h2, lookupKey, if_pos h3]
      · rw [if_neg h3, ih]
        by_cases h2 : k = k2
        · rw [if_pos h2, if_pos h2]
        · rw [if_neg h2, if_neg h2, lookupKey, if_neg h3]

theorem lookupKey_insert {κ ν : Type} [DecidableEq κ] (m : List (κ × ν)) (k k2 : κ)
    (v : ν) :
    lookupKey (insertKey m k v) k2 = if k = k2 then some v else lookupKey m k2 := by
  by_cases h : k = k2
  · simp [insertKey, lookupKey, h]
  · simp [insertKey, lookupKey, h, lookupKey_erase]

/-! `pollStep` lemmas. -/

theorem pollStep_next_id (s : Schedule) (id : TaskId) :
    (pollStep s id).1.next_id = s.next_id := by
  unfold pollStep
  cases hl : lookupKey s.pending_tasks id with
  | none => rfl
  | some t =>
    dsimp only
    cases t.step.2.1 <;> rfl

theorem pollStep_scheduled (s : Schedule) (id : TaskId) :
    (pollStep s id).1.scheduled_ids = s.scheduled_ids ++ stepWakes s id := by
  unfold pollStep stepWakes
  cases hl : lookupKey s.pending_tasks id with
  | none => simp
  | some t =>
    dsimp only
    cases t.step.2.1 <;> rfl

theorem pollStep_snd (s : Schedule) (id : TaskId) :
    (pollStep s id).2 = (lookupKey s.pending_tasks id).isSome := by
  unfold pollStep
  cases hl : lookupKey s.pending_tasks id with
  | none => rfl
  | some t =>
    dsimp only
    cases t.step.2.1 <;> rfl

theorem pollStep_lookup_other (s : Schedule) (j id : TaskId) (h : ¬ j = id) :
    lookupKey (pollStep s j).1.pending_tasks id = lookupKey s.pending_tasks id := by
  unfold pollStep
  cases hl : lookupKey s.pending_tasks j with
  | none => rfl
  | some t =>
    dsimp only
    cases t.step.2.1
    · simp only [lookupKey_insert, lookupKey_erase, h, if_false]
    · simp only [lookupKey_erase, h, if_false]

theorem pollStep_ready_lookup (s : Schedule) (id : TaskId) (t : Task)
    (hl : lookupKey s.pending_tasks id = some t)
    (hr : t.step.2.1 = PollResult.ready) :
    lookupKey (pollStep s id).1.pending_tasks id = none := by
  unfold pollStep
  rw [hl]
  dsimp only
  rw [hr]
  simp [lookupKey_erase]

theorem pollStep_absent (s : Schedule) (id : TaskId)
    (h : lookupKey s.pending_tasks id = none) :
    pollStep s id = (s, false) := by
  unfold pollStep
  rw [h]

theorem exec_retired (s : Schedule) (op : Op) (id : TaskId) (h : Retired s id) :
    Retired (exec s op).1 id ∧ ¬ id ∈ (exec s op).2 := by
  cases op with
  | opWake j => exact ⟨⟨h.1, h.2⟩, by simp [exec]⟩
  | opPoll j =>
    by_cases hj : j = id
    · subst hj
      rw [exec]
      dsimp only
      rw [pollStep_absent s j h.1]
      exact ⟨⟨h.1, h.2⟩, by simp⟩
    · refine ⟨⟨?_, ?_⟩, ?_⟩
      · rw [exec]
        dsimp only
        rw [pollStep_lookup_other s j id hj]
        exact h.1
      · rw [exec]
        dsimp only
        rw [pollStep_next_id]
        exact h.2
      · rw [exec]
        dsimp only
        cases hx : (pollStep s j).2
        · simp
        · simp only [if_true]
          intro hmem
          simp at hmem
          exact hj hmem.symm
  | opSpawn t =>
    have hne : ¬ (⟨s.next_id.val⟩ : TaskId) = id := by
      intro hx
      have hv : s.next_id.val = id.val := congrArg TaskId.val hx
      have := h.2
      omega
    refine ⟨⟨?_, ?_⟩, by simp [exec]⟩
    · show lookupKey (insertKey s.pending_tasks ⟨s.next_id.val⟩ t) id = none
      rw [lookupKey_insert, if_neg hne]
      exact h.1
    · show id.val < s.next_id.val + 1
      have := h.2
      omega

theorem execTrace_retired (ops : List Op) (s : Schedule) (id : TaskId)
    (h : Retired s id) :
    Retired (execTrace s ops).1 id ∧ ¬ id ∈ (execTrace s ops).2 := by
  induction ops generalizing s with
  | nil => exact ⟨h, by simp [execTrace]⟩
  | cons op rest ih =>
    rw [execTrace]
    dsimp only
    have h1 := exec_retired s op id h
    have h2 := ih (exec s op).1 h1.1
    refine ⟨h2.1, ?_⟩
    rw [List.mem_append]
    intro hmem
    cases hmem with
    | inl hx => exact h1.2 hx
    | inr hx => exact h2.2 hx

/-! `pollAll` lemmas. -/

theorem pollAll_log_fst (ids : List TaskId) (s : Schedule) :
    (pollAll s ids).2.map Prod.fst = ids := by
  induction ids generalizing s with
  | nil => rfl
  | cons id rest ih => simp [pollAll, ih]

theorem pollAll_scheduled (ids : List TaskId) (s : Schedule) :
    (pollAll s ids).1.scheduled_ids = s.scheduled_ids ++ wakesDuring s ids := by
  induction ids generalizing s with
  | nil => simp [pollAll, wakesDuring]
  | cons id rest ih =>
    rw [pollAll]
    dsimp only
    rw [ih, pollStep_scheduled, wakesDuring, List.append_assoc]
    simp only [Schedule.poll]

theorem pollAll_stepped_zero (ids : List TaskId) (s : Schedule) (id : TaskId)
    (h : countId ids id = 0) :
    steppedCount (pollAll s ids).2 id = 0 := by
  induction ids generalizing s with
  | nil => rfl
  | cons j rest ih =>
    rw [countId] at h
    by_cases hj : j = id
    · rw [if_pos hj] at h
      omega
    · rw [if_neg hj, Nat.zero_add] at h
      rw [pollAll]
      dsimp only
      rw [steppedCount, if_neg (fun hx => hj hx.1), Nat.zero_add]
      exact ih _ h

theorem pollAll_stepped_once (ids : List TaskId) (s : Schedule) (id : TaskId)
    (hc : countId ids id = 1)
    (hs : (lookupKey s.pending_tasks id).isSome = true) :
    steppedCount (pollAll s ids).2 id = 1 := by
  induction ids generalizing s with
  | nil => exact absurd hc (by rw [countId]; omega)
  | cons j rest ih =>
    rw [countId] at hc
    rw [pollAll]
    dsimp only
    rw [steppedCount]
    by_cases hj : j = id
    · rw [if_pos hj] at hc
      have hc0 : countId rest id = 0 := by omega
      have hstep : (pollStep s j).2 = true := by
        rw [pollStep_snd, hj]
        exact hs
      rw [if_pos ⟨hj, hstep⟩, pollAll_stepped_zero rest _ id hc0]
    · rw [if_neg hj, Nat.zero_add] at hc
      have hs2 : (lookupKey (pollStep s j).1.pending_tasks id).isSome = true := by
        rw [pollStep_lookup_other s j id hj]
        exact hs
      rw [if_neg (fun hx => hj hx.1), Nat.zero_add]
      exact ih _ hc hs2

/-- C9: `TaskId` and `Token` round-trip through the pointer-width payload,
and `Token ↔ TaskId` through that payload is the identity both ways. -/
theorem C9_roundtrips (id : TaskId) (t : Token) :
    TaskId.from_ptr id.to_ptr = id ∧
    Token.from_ptr t.to_ptr = t ∧
    TaskId.ofToken (Token.ofTaskId id) = id ∧
    Token.ofTaskId (TaskId.ofToken t) = t := by
  refine ⟨rfl, rfl, rfl, rfl⟩

/-- C1 counterexample: task 0 is woken twice between two drains
(`schedOneWokenTwice` has two queue entries for it); in the next drain the
task is stepped twice, not exactly once (its first step returns `Pending`,
so the second queue entry steps it again). -/
theorem C1_counterexample :
    countId schedOneWokenTwice.scheduled_ids (tid 0) = 2 ∧
    steppedCount (iteration schedOneWokenTwice).2 (tid 0) = 2 ∧
    ¬ steppedCount (iteration schedOneWokenTwice).2 (tid 0) = 1 := by
  decide

/-- C1 as amended: each `wake` pushes a separate entry onto the ready
queue, so the next drain polls the task once per wake (the drained
snapshot contains the id as often as it was woken); the task is stepped
exactly once in the drain when exactly one wake occurred before it and the
task is live. -/
theorem C1_wake_per_drain (s : Schedule) (id : TaskId) :
    countId ((iteration s).2.map Prod.fst) id = countId s.scheduled_ids id ∧
    (countId s.scheduled_ids id = 1 →
      (lookupKey s.pending_tasks id).isSome = true →
      steppedCount (iteration s).2 id = 1) := by
  constructor
  · rw [iteration]
    rw [pollAll_log_fst]
    rfl
  · intro hc hs
    rw [iteration]
    exact pollAll_stepped_once _ _ _ hc hs

/-- C1 witness: a single wake of the live task 0 leads to exactly one step
in the next drain. -/
theorem C1_witness :
    steppedCount (iteration (wake schedOne (tid 0))).2 (tid 0) = 1 :=
  (C1_wake_per_drain (wake schedOne (tid 0)) (tid 0)).2 (by decide) (by decide)

/-- C4: polling an id whose task is absent from the task map returns
without stepping any task and leaves the whole scheduler state
unchanged. -/
theorem C4_missing_task_noop (s : Schedule) (id : TaskId)
    (h : lookupKey s.pending_tasks id = none) :
    pollStep s id = (s, false) := by
  unfold pollStep
  rw [h]

/-- C4 witness: polling id 5 on the empty schedule is a no-op. -/
theorem C4_witness :
    lookupKey Schedule.empty.pending_tasks (tid 5) = none ∧
    pollStep Schedule.empty (tid 5) = (Schedule.empty, false) :=
  ⟨rfl, C4_missing_task_noop Schedule.empty (tid 5) rfl⟩

/-- C5: draining returns the whole current ready list and leaves the queue
empty; the ids polled in one pass of the dispatch loop are exactly the
drained snapshot in FIFO order; and the ready queue after the pass holds
exactly the wakes issued during those polls (they wait for the next
drain). -/
theorem C5_drain_semantics (s : Schedule) :
    (drain s).1 = s.scheduled_ids ∧
    (drain s).2.scheduled_ids = [] ∧
    (iteration s).2.map Prod.fst = s.scheduled_ids ∧
    (iteration s).1.scheduled_ids = wakesDuring (drain s).2 s.scheduled_ids := by
  refine ⟨?_, ?_, ?_, ?_⟩
  · rfl
  · rfl
  · rw [iteration]
    rw [pollAll_log_fst]
    rfl
  · rw [iteration]
    rw [pollAll_scheduled]
    rfl

/-- C3 counterexample: task 0's only step wakes its own id (through a
cloned waker) and returns `Ready(())`; after `poll` the task is gone from
the task map, yet the id sits in the scheduler's ready queue — refuting
"neither in the task map nor in the ready queue". -/
theorem C3_counterexample :
    selfWakeReadyTask.step.2.1 = PollResult.ready ∧
    lookupKey schedSelfWake.pending_tasks (tid 0) = some selfWakeReadyTask ∧
    (schedSelfWake.poll (tid 0)).scheduled_ids = [tid 0] ∧
    lookupKey (schedSelfWake.poll (tid 0)).pending_tasks (tid 0) = none := by
  decide

/-- C3 as amended: when the polled step returns `Ready(())` the task is
dropped — its id is no longer in the task map — and under any sequence of
subsequent runtime operations (wakes, polls, spawns) it never re-enters
the map and is never stepped again; a stale ready-queue entry for the id
may remain, but polling it is a no-op. -/
theorem C3_ready_never_again (s : Schedule) (id : TaskId) (t : Task)
    (hl : lookupKey s.pending_tasks id = some t)
    (hr : t.step.2.1 = PollResult.ready)
    (hid : id.val < s.next_id.val) :
    lookupKey (s.poll id).pending_tasks id = none ∧
    ∀ ops : List Op,
      lookupKey (execTrace (s.poll id) ops).1.pending_tasks id = none ∧
      ¬ id ∈ (execTrace (s.poll id) ops).2 := by
  have h0 : Retired (s.poll id) id := by
    refine ⟨pollStep_ready_lookup s id t hl hr, ?_⟩
    show id.val < ((pollStep s id).1.next_id).val
    rw [pollStep_next_id]
    exact hid
  refine ⟨h0.1, fun ops => ?_⟩
  have h2 := execTrace_retired ops (s.poll id) id h0
  exact ⟨h2.1.1, h2.2⟩

/-- C3 witness: a task that completes on its first step stays out of the
task map and is never stepped across a concrete follow-up trace that wakes
it, polls it again and spawns another task. -/
theorem C3_witness :
    lookupKey (schedImmediate.poll (tid 0)).pending_tasks (tid 0) = none ∧
    ¬ (tid 0) ∈ (execTrace (schedImmediate.poll (tid 0))
      [Op.opWake (tid 0), Op.opPoll (tid 0), Op.opSpawn twoPendingTask]).2 :=
  ⟨(C3_ready_never_again schedImmediate (tid 0) immediateReadyTask (by decide)
      (by decide) (by decide)).1,
   ((C3_ready_never_again schedImmediate (tid 0) immediateReadyTask (by decide)
      (by decide) (by decide)).2
      [Op.opWake (tid 0), Op.opPoll (tid 0), Op.opSpawn twoPendingTask]).2⟩

/-- C2 counterexample: when the kernel's `kevent` call under
`Selector::try_select` fails with `EINTR`, `try_select` surfaces the error
instead of returning success with zero events. -/
theorem C2_counterexample :
    try_select (Except.error EINTR) Events.default = Except.error EINTR ∧
    (try_select (Except.error EINTR) Events.default).isOk = false :=
  ⟨rfl, rfl⟩

/-- C2 as amended: `try_select` surfaces every syscall error, `EINTR`
included; the `EINTR` swallow ("all submitted changes were applied") lives
in `register_kevents` — the register/deregister path — which proceeds to
the per-event receipt check exactly as on success, while surfacing every
non-`EINTR` syscall error. -/
theorem C2_eintr_register_only (err : Int) (buf : Events)
    (changelist : List KEvent) (ignored : List Int) (hne : ¬ err = EINTR) :
    try_select (Except.error err) buf = Except.error err ∧
    try_select (Except.error EINTR) buf = Except.error EINTR ∧
    register_kevents (Except.error EINTR) changelist ignored =
      check_errors changelist ignored ∧
    register_kevents (Except.ok ()) changelist ignored =
      check_errors changelist ignored ∧
    register_kevents (Except.error err) changelist ignored =
      Except.error err := by
  refine ⟨rfl, rfl, ?_, rfl, ?_⟩
  · rw [register_kevents, if_pos rfl]
  · rw [register_kevents, if_neg hne]

/-- C2 witness: a non-`EINTR` error (`ENOENT`) is surfaced on both
paths. -/
theorem C2_witness :
    try_select (Except.error ENOENT) Events.default = Except.error ENOENT ∧
    register_kevents (Except.error ENOENT) [] [EPIPE] = Except.error ENOENT :=
  ⟨(C2_eintr_register_only ENOENT Events.default [] [EPIPE] (by decide)).1,
   (C2_eintr_register_only ENOENT Events.default [] [EPIPE] (by decide)).2.2.2.2⟩

/-- C6: for every poll of `Accept`, `Read` and `Write`: a `WouldBlock`
error parks the current waker under the fd's token and resolves `Pending`;
any other error is returned unchanged as `Ready(Err(e))`; success resolves
`Ready(Ok(..))` (for `Accept`, success of the wrapping `Stream::new` is
part of the success path and its error is propagated unchanged). -/
theorem C6_tcp_poll_dispatch (r : Reactor) (fd : Nat) (w : TaskId) :
    (∀ n : Nat, Read.poll r fd w (Except.ok n) = (Poll.ready (Except.ok n), r)) ∧
    (∀ e : IoError, e.kind = ErrorKind.wouldBlock →
      Read.poll r fd w (Except.error e) = (Poll.pending, r.do_block fd w) ∧
      lookupKey (r.do_block fd w).blocked_fds (Token.ofFd fd) = some w) ∧
    (∀ e : IoError, ¬ e.kind = ErrorKind.wouldBlock →
      Read.poll r fd w (Except.error e) = (Poll.ready (Except.error e), r)) ∧
    (∀ n : Nat, Write.poll r fd w (Except.ok n) = (Poll.ready (Except.ok n), r)) ∧
    (∀ e : IoError, e.kind = ErrorKind.wouldBlock →
      Write.poll r fd w (Except.error e) = (Poll.pending, r.do_block fd w)) ∧
    (∀ e : IoError, ¬ e.kind = ErrorKind.wouldBlock →
      Write.poll r fd w (Except.error e) = (Poll.ready (Except.error e), r)) ∧
    (∀ sa : Nat × Nat,
      Accept.poll r fd w (Except.ok sa) (Except.ok ()) =
        (Poll.ready (Except.ok sa), r)) ∧
    (∀ (sa : Nat × Nat) (e : IoError),
      Accept.poll r fd w (Except.ok sa) (Except.error e) =
        (Poll.ready (Except.error e), r)) ∧
    (∀ (e : IoError) (snb : Except IoError Unit), e.kind = ErrorKind.wouldBlock →
      Accept.poll r fd w (Except.error e) snb = (Poll.pending, r.do_block fd w)) ∧
    (∀ (e : IoError) (snb : Except IoError Unit), ¬ e.kind = ErrorKind.wouldBlock →
      Accept.poll r fd w (Except.error e) snb =
        (Poll.ready (Except.error e), r)) := by
  refine ⟨fun n => rfl, ?_, ?_, fun n => rfl, ?_, ?_, fun sa => rfl, fun sa e => rfl, ?_, ?_⟩
  · intro e he
    constructor
    · rw [Read.poll, if_pos he]
    · rw [Reactor.do_block]
      dsimp only
      rw [lookupKey_insert, if_pos rfl]
  · intro e he
    rw [Read.poll, if_neg he]
  · intro e he
    rw [Write.poll, if_pos he]
  · intro e he
    rw [Write.poll, if_neg he]
  · intro e snb he
    rw [Accept.poll, if_pos he]
  · intro e snb he
    rw [Accept.poll, if_neg he]

/-- C6 witness: the dispatch at a concrete would-block error (`EAGAIN`,
code 35) and a concrete other error (`ECONNRESET`, code 54). -/
theorem C6_witness :
    Read.poll Reactor.empty 7 (tid 3)
      (Except.error ⟨ErrorKind.wouldBlock, 35⟩) =
      (Poll.pending, Reactor.empty.do_block 7 (tid 3)) ∧
    Write.poll Reactor.empty 7 (tid 3)
      (Except.error ⟨ErrorKind.otherKind, 54⟩) =
      (Poll.ready (Except.error ⟨ErrorKind.otherKind, 54⟩), Reactor.empty) :=
  ⟨((C6_tcp_poll_dispatch Reactor.empty 7 (tid 3)).2.1
      ⟨ErrorKind.wouldBlock, 35⟩ (by decide)).1,
   (C6_tcp_poll_dispatch Reactor.empty 7 (tid 3)).2.2.2.2.2.1
      ⟨ErrorKind.otherKind, 54⟩ (by decide)⟩

/-- C7: dropping an `Accept`, `Read` or `Write` deregisters its fd before
the destructor returns: the parked-waker entry for the fd's token is gone
and both directional selector registrations for the fd are gone; all
three destructors perform the same deregistration. -/
theorem C7_drop_deregisters (r : Reactor) (fd : Nat) :
    lookupKey (Accept.drop r fd).blocked_fds (Token.ofFd fd) = none ∧
    lookupKey (Accept.drop r fd).registrations (fd, EVFILT_READ) = none ∧
    lookupKey (Accept.drop r fd).registrations (fd, EVFILT_WRITE) = none ∧
    Read.drop r fd = Accept.drop r fd ∧
    Write.drop r fd = Accept.drop r fd := by
  refine ⟨?_, ?_, ?_, rfl, rfl⟩
  · show lookupKey (eraseKey r.blocked_fds (Token.ofFd fd)) (Token.ofFd fd) = none
    rw [lookupKey_erase, if_pos rfl]
  · show lookupKey
      (eraseKey (eraseKey r.registrations (fd, EVFILT_WRITE)) (fd, EVFILT_READ))
      (fd, EVFILT_READ) = none
    rw [lookupKey_erase, if_pos rfl]
  · show lookupKey
      (eraseKey (eraseKey r.registrations (fd, EVFILT_WRITE)) (fd, EVFILT_READ))
      (fd, EVFILT_WRITE) = none
    have hne : ¬ ((fd, EVFILT_READ) : Nat × Int) = (fd, EVFILT_WRITE) := by
      intro hx
      have hf : EVFILT_READ = EVFILT_WRITE := congrArg Prod.snd hx
      exact absurd hf (by decide)
    rw [lookupKey_erase, if_neg hne, lookupKey_erase, if_pos rfl]

/-- C8: whenever `block_on` returns, both thread-local cells have been
cleared: neither a schedule nor a reactor remains installed. -/
theorem C8_teardown (fuel : Nat) (turns : List (Except Int (List KEvent)))
    (main : Task) (tl tl2 : ThreadLocals)
    (h : block_on fuel turns main tl = some tl2) :
    tl2.schedule = none ∧ tl2.reactor = none := by
  obtain ⟨os, orr⟩ := tl
  cases os with
  | some s => exact Option.noConfusion h
  | none =>
    cases orr with
    | some r => exact Option.noConfusion h
    | none =>
      rw [block_on] at h
      dsimp only at h
      cases hd : dispatch fuel Reactor.empty turns (Schedule.empty.spawn main) with
      | none =>
        rw [hd] at h
        exact Option.noConfusion h
      | some s1 =>
        rw [hd] at h
        have h2 : (⟨none, none⟩ : ThreadLocals) = tl2 := Option.some.inj h
        rw [← h2]
        exact ⟨rfl, rfl⟩

/-- C8 witness: a run of `block_on` on a task that completes on its first
poll returns with both thread-locals cleared. -/
theorem C8_witness :
    block_on 1 [] immediateReadyTask ⟨none, none⟩ =
      some (⟨none, none⟩ : ThreadLocals) ∧
    (⟨none, none⟩ : ThreadLocals).schedule = none ∧
    (⟨none, none⟩ : ThreadLocals).reactor = none :=
  ⟨by decide,
   C8_teardown 1 [] immediateReadyTask ⟨none, none⟩ ⟨none, none⟩ (by decide)⟩

/-- C10: the event buffer `turn` hands to `select` has length one and
capacity one, `try_select` populates at most the buffer's capacity, and
therefore one blocking turn invokes at most one waker — the ready queue
grows by at most one entry. -/
theorem C10_turn_single_event (r : Reactor) (s s2 : Schedule)
    (kready : Except Int (List KEvent))
    (h : Reactor.try_turn r s kready = Except.ok s2) :
    Events.default.capacity = 1 ∧
    Events.default.events.length = 1 ∧
    (∀ out : Events, try_select kready Events.default = Except.ok out →
      out.events.length ≤ 1) ∧
    s2.scheduled_ids.length ≤ s.scheduled_ids.length + 1 := by
  refine ⟨rfl, rfl, ?_, ?_⟩
  · intro out hout
    cases kready with
    | error e => exact Except.noConfusion hout
    | ok ks =>
      have h2 : ({ capacity := 1, events := ks.take 1 } : Events) = out :=
        Except.ok.inj hout
      rw [← h2]
      simp
  · rw [Reactor.try_turn] at h
    cases kready with
    | error e => exact Except.noConfusion h
    | ok ks =>
      rw [try_select] at h
      dsimp only at h
      have h2 : (ks.take 1).foldl (dispatchEvent r) s = s2 := Except.ok.inj h
      rw [← h2]
      cases ks with
      | nil => simp
      | cons e rest =>
        rw [List.take_succ_cons, List.take_zero, List.foldl_cons, List.foldl_nil]
        rw [dispatchEvent]
        cases lookupKey r.blocked_fds (Token.from_ptr e.udata) with
        | none =>
          show s.scheduled_ids.length ≤ s.scheduled_ids.length + 1
          omega
        | some w =>
          show (wake s w).scheduled_ids.length ≤ s.scheduled_ids.length + 1
          rw [wake]
          simp

/-- C10 witness: a turn where the kernel reports one readiness event for a
parked token wakes exactly that one waker. -/
theorem C10_witness :
    (Reactor.mk [] [(Token.from_ptr 9, tid 4)]).try_turn Schedule.empty
      (Except.ok [⟨9, -1, 0, 0, 0, 9⟩]) =
      Except.ok (wake Schedule.empty (tid 4)) ∧
    (wake Schedule.empty (tid 4)).scheduled_ids.length ≤
      Schedule.empty.scheduled_ids.length + 1 :=
  ⟨by rfl,
   (C10_turn_single_event (Reactor.mk [] [(Token.from_ptr 9, tid 4)])
      Schedule.empty (wake Schedule.empty (tid 4))
      (Except.ok [⟨9, -1, 0, 0, 0, 9⟩]) (by rfl)).2.2.2⟩

end LittleTokio
